import Mathlib

/-!
Verification of the TurbineTracker incremental blockchain event indexer.

This file shallowly embeds the data model and operations of the repository
(src/types.ts, src/services/db.ts, src/services/rpc.ts, and the App
component in src/unnamed/part_000 / src/unnamed/part_001) and proves the
frozen claims about them.

Conventions of the embedding:
* TypeScript numbers holding block numbers, timestamps and batch sizes are
  embedded as `Int` (they are produced by integer arithmetic well inside the
  exact range of doubles in every scenario considered); `bigint` values and
  the decimal strings denoting them are embedded as `Int` by their integer
  denotation (`BigInt(s)` is the identity under this denotation).
* The Dexie table of events is embedded as a `List LogEvent` (the store's
  contents); each `db` operation becomes a pure function of that list.
* The asynchronous sync loop is embedded as a fuel-indexed recursive
  function over an explicit `SyncState`; the RPC collaborator is an
  environment of `Except`-valued oracles so that fetch / head / timestamp
  failures can be injected.  Cooperative cancellation (`stopSync`) happens
  on a different event-handler turn and is not part of a single
  `startSync` run, so within one modelled run `isSyncingRef` is only
  written by `startSync` itself.
-/

namespace TurbineTracker

/-- LogEvent from src/types.ts.  `uniqueId` and `logIndex` are optional in
the source (legacy records); `silenceAmount` / `usdtAmount` are decimal
strings in the source, embedded by the integers they denote.  `usdtAmount`
is optional because records written by src/unnamed/part_000 lack it and
part_001 reads it with the guard `ev.usdtAmount || '0'`. -/
structure LogEvent where
  uniqueId : Option String
  logIndex : Option Nat
  blockNumber : Nat
  transactionHash : String
  recipient : String
  silenceAmount : Int
  usdtAmount : Option Int
  timestamp : Int
  deriving Repr, DecidableEq

/-- SyncStatus from src/types.ts. -/
inductive SyncStatus where
  | IDLE
  | SYNCING
  | PAUSED
  | ERROR
  | COMPLETED
  deriving Repr, DecidableEq

/-- LGNS_DECIMALS from src/types.ts. -/
def LGNS_DECIMALS : Nat := 9

/-- USDT_DECIMALS from src/types.ts. -/
def USDT_DECIMALS : Nat := 18

/-- Truthiness of `e.uniqueId` in the filter `events.filter(e => e.uniqueId)`
of saveEvents (src/services/db.ts line 30): `undefined` and the empty
string are falsy. -/
def hasUniqueId (e : LogEvent) : Bool :=
  match e.uniqueId with
  | none => false
  | some s => !(s == "")

/-- The uniqueId of an event that passed the truthiness filter (the source
reads `e.uniqueId as string` after that filter). -/
def idOf (e : LogEvent) : String := e.uniqueId.getD ""

/-- The local const `validEvents` of saveEvents (src/services/db.ts line 30). -/
def validEventsOf (events : List LogEvent) : List LogEvent :=
  events.filter hasUniqueId

/-- The local const `ids` of saveEvents (src/services/db.ts line 41). -/
def idsOf (events : List LogEvent) : List String :=
  (validEventsOf events).map idOf

/-- Predicate used for `db.events.where('uniqueId').anyOf(ids)` in
saveEvents: a stored record matches when its `uniqueId` index value is one
of the supplied ids (records without a `uniqueId` are not in the index). -/
def matchesIds (ids : List String) (s : LogEvent) : Bool :=
  match s.uniqueId with
  | some u => ids.contains u
  | none => false

/-- The local const `existingSet` of saveEvents (src/services/db.ts lines
42-43): the set of uniqueIds of stored records whose uniqueId occurs among
the candidates' ids. -/
def existingSetOf (store events : List LogEvent) : List String :=
  (store.filter (matchesIds (idsOf events))).map idOf

/-- The local `newEvents` accumulated by the for-loop of saveEvents
(src/services/db.ts lines 45-49): the valid candidates whose uniqueId is
not in `existingSet`. -/
def newEventsOf (store events : List LogEvent) : List LogEvent :=
  (validEventsOf events).filter (fun e => !((existingSetOf store events).contains (idOf e)))

/-- saveEvents from src/services/db.ts lines 25-57: return `[]` at once for
an empty candidate list or when no candidate carries a uniqueId; otherwise
bulkAdd `newEvents` (only when non-empty) and return exactly `newEvents`.
The result is `(returned list, store after the call)`. -/
def saveEvents (store events : List LogEvent) : List LogEvent × List LogEvent :=
  if events.isEmpty then ([], store)
  else if (validEventsOf events).isEmpty then ([], store)
  else
    (newEventsOf store events,
     if (newEventsOf store events).isEmpty then store
     else store ++ newEventsOf store events)

/-- getAllEvents from src/services/db.ts lines 59-61. -/
def getAllEvents (store : List LogEvent) : List LogEvent := store

/-- clearDatabase from src/services/db.ts lines 63-65. -/
def clearDatabase (_store : List LogEvent) : List LogEvent := []

/-- getLatestStoredBlock from src/services/db.ts lines 67-70:
`db.events.orderBy('blockNumber').last()` is the stored event with the
greatest `blockNumber`; the function returns that block number, or 0 when
the store is empty. -/
def getLatestStoredBlock (store : List LogEvent) : Nat :=
  store.foldl (fun m e => max m e.blockNumber) 0

/-- Specification-side view of the store's uniqueIds: every `uniqueId`
carried by some stored record. -/
def storedIds (store : List LogEvent) : List String :=
  store.filterMap (fun s => s.uniqueId)

/-- Number of stored records carrying a given uniqueId. -/
def countId (store : List LogEvent) (i : String) : Nat :=
  (store.filter (fun s => s.uniqueId == some i)).length

/-- Folding saveEvents over a sequence of candidate batches, keeping the
store of each successful call. -/
def applyBatches (store : List LogEvent) (batches : List (List LogEvent)) :
    List LogEvent :=
  batches.foldl (fun s b => (saveEvents s b).2) store

-- helper lemmas about the store ------------------------------------------

lemma mem_storedIds {store : List LogEvent} {a : String} :
    a ∈ storedIds store ↔ ∃ s ∈ store, s.uniqueId = some a := by
  simp [storedIds, List.mem_filterMap]

lemma contains_iff {l : List String} {a : String} :
    l.contains a = true ↔ a ∈ l := by
  simp

lemma idOf_eq {e : LogEvent} {u : String} (h : e.uniqueId = some u) :
    idOf e = u := by
  simp [idOf, h]

lemma existingSet_contains_eq (store events : List LogEvent) (a : String)
    (ha : a ∈ idsOf events) :
    (existingSetOf store events).contains a = (storedIds store).contains a := by
  rw [Bool.eq_iff_iff, contains_iff, contains_iff, mem_storedIds]
  unfold existingSetOf
  constructor
  · intro h
    rcases List.mem_map.mp h with ⟨s, hs, hid⟩
    rcases List.mem_filter.mp hs with ⟨hsStore, hmatch⟩
    refine ⟨s, hsStore, ?_⟩
    unfold matchesIds at hmatch
    cases hu : s.uniqueId with
    | none => rw [hu] at hmatch; cases hmatch
    | some u =>
      rw [← hid, idOf_eq hu]
  · rintro ⟨s, hsStore, hu⟩
    refine List.mem_map.mpr ⟨s, List.mem_filter.mpr ⟨hsStore, ?_⟩, idOf_eq hu⟩
    unfold matchesIds
    rw [hu]
    exact contains_iff.mpr ha

lemma newEventsOf_eq (store events : List LogEvent) :
    newEventsOf store events
      = events.filter (fun e => hasUniqueId e && !((storedIds store).contains (idOf e))) := by
  unfold newEventsOf validEventsOf
  rw [List.filter_filter]
  apply List.filter_congr
  intro e he
  by_cases hu : hasUniqueId e = true
  · have hmem : idOf e ∈ idsOf events :=
      List.mem_map_of_mem idOf (List.mem_filter.mpr ⟨he, hu⟩)
    simp only [hu, Bool.and_true, Bool.true_and]
    rw [existingSet_contains_eq store events (idOf e) hmem]
  · simp only [Bool.not_eq_true] at hu
    simp [hu]

lemma saveEvents_fst (store events : List LogEvent) :
    (saveEvents store events).1
      = events.filter (fun e => hasUniqueId e && !((storedIds store).contains (idOf e))) := by
  unfold saveEvents
  by_cases h0 : events.isEmpty
  · rw [List.isEmpty_iff] at h0
    subst h0
    simp
  · rw [if_neg h0]
    by_cases h1 : (validEventsOf events).isEmpty
    · rw [if_pos h1]
      rw [List.isEmpty_iff] at h1
      have h2 : newEventsOf store events = [] := by
        rw [newEventsOf, h1, List.filter_nil]
      rw [newEventsOf_eq store events] at h2
      exact h2.symm
    · rw [if_neg h1]
      exact newEventsOf_eq store events

lemma saveEvents_snd (store events : List LogEvent) :
    (saveEvents store events).2 = store ++ (saveEvents store events).1 := by
  unfold saveEvents
  by_cases h0 : events.isEmpty
  · simp [h0]
  · rw [if_neg h0]
    by_cases h1 : (validEventsOf events).isEmpty
    · simp [h1]
    · rw [if_neg h1]
      by_cases h2 : (newEventsOf store events).isEmpty
      · rw [List.isEmpty_iff] at h2
        simp [h2]
      · simp [h2]

lemma uniqueId_eq_idOf {e : LogEvent} (h : hasUniqueId e = true) :
    e.uniqueId = some (idOf e) := by
  unfold hasUniqueId at h
  cases hu : e.uniqueId with
  | none => rw [hu] at h; cases h
  | some s => rw [idOf_eq hu]

lemma contains_false_iff {l : List String} {a : String} :
    l.contains a = false ↔ a ∉ l := by
  simp

lemma countId_append (l1 l2 : List LogEvent) (i : String) :
    countId (l1 ++ l2) i = countId l1 i + countId l2 i := by
  simp [countId, List.filter_append]

lemma countId_eq_zero {store : List LogEvent} {i : String}
    (h : (storedIds store).contains i = false) : countId store i = 0 := by
  unfold countId
  rw [List.length_eq_zero, List.filter_eq_nil_iff]
  intro s hs hbeq
  rw [beq_iff_eq] at hbeq
  have : (storedIds store).contains i = true :=
    contains_iff.mpr (mem_storedIds.mpr ⟨s, hs, hbeq⟩)
  rw [h] at this
  cases this

lemma foldl_zero_eq_glsb (l : List LogEvent) :
    List.foldl (fun m e => max m e.blockNumber) 0 l = getLatestStoredBlock l := rfl

lemma glsb_foldl (l : List LogEvent) :
    ∀ i : Nat, List.foldl (fun m e => max m e.blockNumber) i l
      = max i (getLatestStoredBlock l) := by
  induction l with
  | nil => intro i; simp [getLatestStoredBlock]
  | cons a t ih =>
    intro i
    rw [List.foldl_cons, ih (max i a.blockNumber)]
    have h : getLatestStoredBlock (a :: t)
        = max a.blockNumber (getLatestStoredBlock t) := by
      rw [← foldl_zero_eq_glsb (a :: t), List.foldl_cons, ih (max 0 a.blockNumber)]
      omega
    rw [h]
    omega

lemma glsb_cons (a : LogEvent) (t : List LogEvent) :
    getLatestStoredBlock (a :: t) = max a.blockNumber (getLatestStoredBlock t) := by
  rw [← foldl_zero_eq_glsb (a :: t), List.foldl_cons, glsb_foldl]
  omega

lemma glsb_append (l1 l2 : List LogEvent) :
    getLatestStoredBlock (l1 ++ l2)
      = max (getLatestStoredBlock l1) (getLatestStoredBlock l2) := by
  rw [← foldl_zero_eq_glsb (l1 ++ l2), List.foldl_append, glsb_foldl,
    foldl_zero_eq_glsb l1]

lemma mem_le_glsb {store : List LogEvent} :
    ∀ e ∈ store, e.blockNumber ≤ getLatestStoredBlock store := by
  induction store with
  | nil => intro e he; cases he
  | cons a t ih =>
    intro e he
    rw [glsb_cons]
    rcases List.mem_cons.mp he with h | h
    · subst h; omega
    · have := ih e h; omega

lemma glsb_exists {store : List LogEvent} (h : store ≠ []) :
    ∃ e ∈ store, getLatestStoredBlock store = e.blockNumber := by
  induction store with
  | nil => cases h rfl
  | cons a t ih =>
    rw [glsb_cons]
    rcases List.eq_nil_or_concat t with ht | _
    · subst ht
      exact ⟨a, List.mem_singleton_self a, by simp [getLatestStoredBlock]⟩
    · by_cases hcmp : getLatestStoredBlock t ≤ a.blockNumber
      · exact ⟨a, List.mem_cons_self a t, by omega⟩
      · have htne : t ≠ [] := by
          intro htnil
          rw [htnil] at hcmp
          simp [getLatestStoredBlock] at hcmp
        rcases ih htne with ⟨e, he, heq⟩
        exact ⟨e, List.mem_cons_of_mem a he, by omega⟩

lemma glsb_le_saveEvents (store events : List LogEvent) :
    getLatestStoredBlock store ≤ getLatestStoredBlock (saveEvents store events).2 := by
  rw [saveEvents_snd, glsb_append]
  omega

lemma glsb_le_applyBatches (batches : List (List LogEvent)) :
    ∀ store : List LogEvent,
      getLatestStoredBlock store ≤ getLatestStoredBlock (applyBatches store batches) := by
  induction batches with
  | nil => intro store; exact le_refl _
  | cons b bs ih =>
    intro store
    unfold applyBatches
    rw [List.foldl_cons]
    exact le_trans (glsb_le_saveEvents store b) (ih (saveEvents store b).2)

-- claim theorems about the store ------------------------------------------

/-- C1: saveEvents inserts only those candidates whose uniqueId is not
already present in storage and returns exactly the inserted subset (the
store after the call is the old store extended by exactly the returned
list); inserting the same event twice yields exactly one stored record,
and a call whose candidates are all already stored returns an empty list
and leaves storage unchanged. -/
theorem saveEvents_dedup_spec (store events : List LogEvent) (e : LogEvent) :
    (saveEvents store events).1
        = events.filter (fun x => hasUniqueId x && !((storedIds store).contains (idOf x)))
    ∧ (saveEvents store events).2 = store ++ (saveEvents store events).1
    ∧ ((∀ x ∈ events, hasUniqueId x = true → (storedIds store).contains (idOf x) = true) →
          saveEvents store events = ([], store))
    ∧ (hasUniqueId e = true → (storedIds store).contains (idOf e) = false →
          countId (saveEvents (saveEvents store [e]).2 [e]).2 (idOf e) = 1
          ∧ (saveEvents (saveEvents store [e]).2 [e]).1 = []) := by
  refine ⟨saveEvents_fst store events, saveEvents_snd store events, ?_, ?_⟩
  · intro hall
    have hfst : (saveEvents store events).1 = [] := by
      rw [saveEvents_fst, List.filter_eq_nil_iff]
      intro x hx
      cases hu : hasUniqueId x
      · simp [hu]
      · simp [hu, contains_iff.mp (hall x hx hu)]
    have hsnd : (saveEvents store events).2 = store := by
      rw [saveEvents_snd, hfst, List.append_nil]
    rw [Prod.ext_iff]
    exact ⟨hfst, hsnd⟩
  · intro hu hns
    have hnotmem : idOf e ∉ storedIds store := contains_false_iff.mp hns
    have hfst1 : (saveEvents store [e]).1 = [e] := by
      rw [saveEvents_fst]
      simp [hu, hnotmem]
    have hsnd1 : (saveEvents store [e]).2 = store ++ [e] := by
      rw [saveEvents_snd, hfst1]
    have hmem1 : idOf e ∈ storedIds (store ++ [e]) := by
      refine mem_storedIds.mpr ⟨e, ?_, uniqueId_eq_idOf hu⟩
      exact List.mem_append_right store (List.mem_singleton_self e)
    have hfst2 : (saveEvents (store ++ [e]) [e]).1 = [] := by
      rw [saveEvents_fst]
      simp [hu, hmem1]
    have hsnd2 : (saveEvents (store ++ [e]) [e]).2 = store ++ [e] := by
      rw [saveEvents_snd, hfst2, List.append_nil]
    rw [hsnd1, hsnd2, hfst2]
    refine ⟨?_, rfl⟩
    rw [countId_append, countId_eq_zero hns]
    have : countId [e] (idOf e) = 1 := by
      unfold countId
      rw [List.filter_cons]
      simp [uniqueId_eq_idOf hu]
    rw [this]

/-- Sample decoded event used by concrete witnesses. -/
def sampleEvent : LogEvent :=
  { uniqueId := some "0xabc-0", logIndex := some 0, blockNumber := 5,
    transactionHash := "0xabc", recipient := "0xR", silenceAmount := 7,
    usdtAmount := some 3, timestamp := 0 }

/-- Sample legacy event without a uniqueId, used by concrete witnesses. -/
def sampleNoIdEvent : LogEvent :=
  { uniqueId := none, logIndex := none, blockNumber := 9,
    transactionHash := "0xdef", recipient := "0xR", silenceAmount := 1,
    usdtAmount := none, timestamp := 0 }

/-- Witness for C1: inserting one fresh event twice into an empty store
leaves exactly one record with its uniqueId, and the second call returns
the empty list. -/
theorem saveEvents_dedup_spec_witness :
    countId (saveEvents (saveEvents [] [sampleEvent]).2 [sampleEvent]).2 "0xabc-0" = 1
    ∧ (saveEvents (saveEvents [] [sampleEvent]).2 [sampleEvent]).1 = [] :=
  (saveEvents_dedup_spec [] [sampleEvent] sampleEvent).2.2.2 (by decide) (by decide)

/-- C10: saveEvents never returns (hence never inserts) a candidate whose
uniqueId is absent (undefined or empty), and a call in which no candidate
carries a uniqueId returns the empty list and leaves the store unchanged. -/
theorem saveEvents_requires_uniqueId (store events : List LogEvent) :
    (∀ x ∈ (saveEvents store events).1, hasUniqueId x = true)
    ∧ ((∀ x ∈ events, hasUniqueId x = false) → saveEvents store events = ([], store)) := by
  constructor
  · intro x hx
    rw [saveEvents_fst] at hx
    have := List.of_mem_filter hx
    exact (Bool.and_eq_true _ _).mp this |>.1
  · intro hnone
    have hfst : (saveEvents store events).1 = [] := by
      rw [saveEvents_fst, List.filter_eq_nil_iff]
      intro x hx
      simp [hnone x hx]
    have hsnd : (saveEvents store events).2 = store := by
      rw [saveEvents_snd, hfst, List.append_nil]
    rw [Prod.ext_iff]
    exact ⟨hfst, hsnd⟩

/-- Witness for C10: a batch whose single candidate has no uniqueId is
rejected wholesale and the (empty) store is untouched. -/
theorem saveEvents_requires_uniqueId_witness :
    saveEvents [] [sampleNoIdEvent] = ([], []) :=
  (saveEvents_requires_uniqueId [] [sampleNoIdEvent]).2 (by decide)

/-- C2: getLatestStoredBlock returns the maximum blockNumber over all
stored events (it bounds every stored event and is attained by one when
the store is non-empty), is 0 on the empty store, is non-decreasing across
any sequence of insert batches, and is exactly 0 immediately after
clearDatabase. -/
theorem latest_block_checkpoint_spec (store : List LogEvent) :
    (store = [] → getLatestStoredBlock store = 0)
    ∧ (∀ e ∈ store, e.blockNumber ≤ getLatestStoredBlock store)
    ∧ (store ≠ [] → ∃ e ∈ store, getLatestStoredBlock store = e.blockNumber)
    ∧ (∀ batches : List (List LogEvent),
        getLatestStoredBlock store ≤ getLatestStoredBlock (applyBatches store batches))
    ∧ getLatestStoredBlock (clearDatabase store) = 0 := by
  refine ⟨?_, mem_le_glsb, glsb_exists, fun batches => glsb_le_applyBatches batches store, rfl⟩
  intro h
  rw [h]
  rfl

/-- Witness for C2: on the empty store the checkpoint is 0. -/
theorem latest_block_checkpoint_spec_witness :
    getLatestStoredBlock ([] : List LogEvent) = 0 :=
  (latest_block_checkpoint_spec []).1 rfl

-- src/services/rpc.ts ------------------------------------------------------

/-- Anchor state of RPCService (src/services/rpc.ts lines 6-7), with the
source's fallback defaults. -/
structure RPCService where
  anchorBlock : Int := 80308548
  anchorTimestamp : Int := 1734213600000
  deriving Repr, DecidableEq

/-- updateAnchor from src/services/rpc.ts lines 13-16: replaces both anchor
fields. -/
def updateAnchor (_s : RPCService) (block timestamp : Int) : RPCService :=
  { anchorBlock := block, anchorTimestamp := timestamp }

/-- estimateTimestamp from src/services/rpc.ts lines 31-34:
`anchorTimestamp + (blockNumber - anchorBlock) * 2000`, with no bounds
checking. -/
def estimateTimestamp (s : RPCService) (blockNumber : Int) : Int :=
  s.anchorTimestamp + (blockNumber - s.anchorBlock) * 2000

/-- C9: the timestamp estimator is exactly the linear function
`anchorTimestamp + (blockNumber - anchorBlock) * 2000`: it returns the
anchor timestamp at the anchor block and shifts by `k * 2000` at offset
`k`, for any integer `k` and any anchor state (also after updateAnchor). -/
theorem estimate_timestamp_linear (s : RPCService) (b t k bn : Int) :
    estimateTimestamp s s.anchorBlock = s.anchorTimestamp
    ∧ estimateTimestamp s (s.anchorBlock + k) = s.anchorTimestamp + k * 2000
    ∧ estimateTimestamp (updateAnchor s b t) (b + k) = t + k * 2000
    ∧ estimateTimestamp s bn = s.anchorTimestamp + (bn - s.anchorBlock) * 2000 := by
  unfold estimateTimestamp updateAnchor
  refine ⟨by ring, by ring, by ring, rfl⟩

-- sync engine (src/unnamed/part_001, with part_000 where cited) -----------

/-- BLOCK_TIME_SEC from src/unnamed/part_001 line 10. -/
def BLOCK_TIME_SEC : Int := 2

/-- Retry delay of the automatic error recovery (the
`setTimeout(() => startSync(true), 5000)` in src/unnamed/part_001 line
276), in milliseconds. -/
def RETRY_DELAY_MS : Nat := 5000

/-- Error text produced by the catch handler of startSync
(src/unnamed/part_001 line 272); `err.message || "Unknown"` falls back on
a falsy (empty) message. -/
def errText (m : String) : String :=
  "RPC Error: " ++ (if m == "" then "Unknown" else m) ++ ". Retrying in 5s..."

/-- Lower-bound determination of startSync (src/unnamed/part_001 lines
222-230): resume from a non-zero scanned block, otherwise derive the
pointer from the configured start time via
`blocksAgo = max(0, floor((headTs - startTime) / 1000 / BLOCK_TIME_SEC))`
and `max(0, head - blocksAgo)`.  `Math.floor` of the real quotient is
floor division by 2000. -/
def computeStartPointer (scannedBlock head headTs startTime : Int) : Int :=
  if scannedBlock > 0 then scannedBlock
  else
    max 0 (head - max 0 (Int.fdiv (headTs - startTime) (1000 * BLOCK_TIME_SEC)))

/-- End-block half of calculateBlockRanges (src/unnamed/part_001 lines
106-113): when an end time is configured, `max(0, currentBlock -
floor((chainTimestamp - endTime) / 1000 / BLOCK_TIME_SEC))`; otherwise the
calculated end block is reset to 0. -/
def calculateEndBlock (currentBlock chainTimestamp : Int) (endTime : Option Int) : Int :=
  match endTime with
  | none => 0
  | some t => max 0 (currentBlock - Int.fdiv (chainTimestamp - t) (1000 * BLOCK_TIME_SEC))

/-- Upper bound of startSync (src/unnamed/part_001 line 232):
`calculatedEndBlock > 0 ? Math.min(head, calculatedEndBlock) : head`. -/
def syncLimit (head calculatedEndBlock : Int) : Int :=
  if calculatedEndBlock > 0 then min head calculatedEndBlock else head

/-- Per-batch upper block of the part_001 loop (src/unnamed/part_001 line
242): `Math.min(currentPointer + batchSize, syncLimit)` — note the absence
of any clamp on `batchSize`. -/
def toBlockOf (pointer batchSize limit : Int) : Int :=
  min (pointer + batchSize) limit

/-- Clamped batch size of the part_000 loop (src/unnamed/part_000 line
228): `Math.max(1, batchSize)`. -/
def safeBatchOf (batchSize : Int) : Int := max 1 batchSize

/-- Per-batch upper block of the part_000 loop (src/unnamed/part_000 lines
228-229), which clamps the batch size to at least 1. -/
def toBlockOfClamped (pointer batchSize limit : Int) : Int :=
  min (pointer + safeBatchOf batchSize) limit

/-- RPC collaborator as an oracle environment: the head read, the head
timestamp read, and the log fetch may each fail with an error message
(covering RpcError, DecodeError inside fetchLogs, and — via the same
thrown-error path — StorageError from saveEvents). -/
structure RpcEnv where
  head : Except String Int
  headTs : Except String Int
  fetchLogs : Int → Int → Except String (List LogEvent)

/-- Mutable state touched by startSync / the sync loop: the scanned-block
checkpoint mirror, the persistent store, the status, the error banner, the
pending retry timer (delay in ms; `none` = no timer; the source keeps at
most one, clearing any previous one), the `isSyncingRef` flag, and the
list of (fromBlock, toBlock) ranges passed to fetchLogs (recorded for
specification purposes). -/
structure SyncState where
  scannedBlock : Int := 0
  store : List LogEvent := []
  status : SyncStatus := SyncStatus.IDLE
  errorMsg : Option String := none
  retryTimer : Option Nat := none
  isSyncing : Bool := false
  ranges : List (Int × Int) := []

/-- Initial application state. -/
def initialState : SyncState := {}

/-- Catch handler of startSync (src/unnamed/part_001 lines 271-277): set
the error banner, enter ERROR, and schedule one 5 s retry timer — but only
when `isSyncingRef.current` is set. -/
def onError (st : SyncState) (m : String) : SyncState :=
  { st with status := SyncStatus.ERROR,
            errorMsg := some (errText m),
            retryTimer := if st.isSyncing then some RETRY_DELAY_MS else st.retryTimer }

/-- The while-loop of startSync (src/unnamed/part_001 lines 241-263),
fuel-indexed.  Each iteration computes `toBlock`, fetches the range
`(pointer+1, toBlock)`, persists via saveEvents when logs were returned,
advances the pointer and the scanned block, and recurses; a thrown error
reaches the catch handler.  On loop exit the source sets COMPLETED (the
pointer reached the limit while `isSyncingRef` is still set, which in a
single modelled run is always the case).  Exhausted fuel returns the
still-SYNCING state of the unfinished loop. -/
def syncLoop (env : RpcEnv) (batchSize limit : Int) :
    Nat → Int → SyncState → SyncState
  | 0, _, st => st
  | fuel + 1, pointer, st =>
    if pointer < limit then
      match env.fetchLogs (pointer + 1) (toBlockOf pointer batchSize limit) with
      | Except.error m =>
        onError { st with
          ranges := st.ranges ++ [(pointer + 1, toBlockOf pointer batchSize limit)] } m
      | Except.ok newLogs =>
        syncLoop env batchSize limit fuel (toBlockOf pointer batchSize limit)
          { st with
            store := if newLogs.isEmpty then st.store else (saveEvents st.store newLogs).2,
            scannedBlock := toBlockOf pointer batchSize limit,
            ranges := st.ranges ++ [(pointer + 1, toBlockOf pointer batchSize limit)] }
    else { st with status := SyncStatus.COMPLETED }

/-- startSync from src/unnamed/part_001 lines 208-278: the re-entrancy
guard, clearing any pending retry timer, entering SYNCING (clearing the
banner unless this is a retry re-entry), reading head and head timestamp,
computing the lower bound and the sync limit, completing at once when
nothing is left to scan, and otherwise running the batch loop with
`isSyncingRef` set.  The anchor refresh and the presentation-state setters
that do not feed back into the loop are omitted. -/
def startSync (env : RpcEnv) (isRetry : Bool) (startTime calculatedEndBlock batchSize : Int)
    (fuel : Nat) (st0 : SyncState) : SyncState :=
  if st0.status = SyncStatus.SYNCING ∧ isRetry = false then st0
  else
    let st := { st0 with retryTimer := none,
                         status := SyncStatus.SYNCING,
                         errorMsg := if isRetry then st0.errorMsg else none }
    match env.head with
    | Except.error m => onError st m
    | Except.ok head =>
      match env.headTs with
      | Except.error m => onError st m
      | Except.ok headTs =>
        let pointer := computeStartPointer st.scannedBlock head headTs startTime
        let limit := syncLimit head calculatedEndBlock
        if pointer ≥ limit then { st with status := SyncStatus.COMPLETED }
        else syncLoop env batchSize limit fuel pointer { st with isSyncing := true }

/-- Concrete RPC environment whose reads all succeed (head 1050, head
timestamp 100000 ms) and whose fetches return no logs. -/
def envOkEmpty : RpcEnv :=
  { head := Except.ok 1050, headTs := Except.ok 100000,
    fetchLogs := fun _ _ => Except.ok [] }

/-- Concrete RPC environment whose head read fails. -/
def envHeadFail : RpcEnv :=
  { head := Except.error "boom", headTs := Except.ok 0,
    fetchLogs := fun _ _ => Except.ok [] }

/-- A mid-loop state: the loop is running (SYNCING, `isSyncingRef` set)
with the scanned pointer at 1000. -/
def stuckState : SyncState :=
  { scannedBlock := 1000, store := [], status := SyncStatus.SYNCING,
    errorMsg := none, retryTimer := none, isSyncing := true, ranges := [] }

lemma syncLoop_zero_batch (fuel : Nat) :
    ∀ st : SyncState, st.status = SyncStatus.SYNCING → st.scannedBlock = 1000 →
      (syncLoop envOkEmpty 0 1050 fuel 1000 st).status = SyncStatus.SYNCING
      ∧ (syncLoop envOkEmpty 0 1050 fuel 1000 st).scannedBlock = 1000 := by
  induction fuel with
  | zero => intro st h1 h2; exact ⟨h1, h2⟩
  | succ n ih =>
    intro st h1 h2
    rw [syncLoop, if_pos (by decide : (1000 : Int) < 1050)]
    exact ih _ h1 rfl

/-- C3 (code bug): the part_001 loop does not clamp the batch size.  With
batch size 0 (enterable through the Batch Size input) and pointer 1000
below limit 1050, `toBlock = min(pointer + 0, 1050) = pointer`, so the
loop never advances: for every amount of fuel it is still SYNCING at
scanned block 1000 and never reaches COMPLETED.  The part_000 version of
the same loop clamps (`Math.max(1, batchSize)`) and would advance to 1001,
which is what the specification requires. -/
theorem batch_size_unclamped_bug :
    toBlockOf 1000 0 1050 = 1000
    ∧ toBlockOfClamped 1000 0 1050 = 1001
    ∧ ∀ fuel : Nat,
        (syncLoop envOkEmpty 0 1050 fuel 1000 stuckState).status = SyncStatus.SYNCING
        ∧ (syncLoop envOkEmpty 0 1050 fuel 1000 stuckState).scannedBlock = 1000 :=
  ⟨by decide, by decide, fun fuel => syncLoop_zero_batch fuel stuckState rfl rfl⟩

/-- C5: cold start with computed start block 1000 (scanned block 0, head
1050, head timestamp 100000 ms, start time 0 ms), batch size 20 and no end
bound issues exactly the fetch ranges (1001, 1020), (1021, 1040),
(1041, 1050), ends with the scanned-block checkpoint at 1050, and
finishes COMPLETED. -/
theorem cold_start_scenario :
    computeStartPointer 0 1050 100000 0 = 1000
    ∧ (startSync envOkEmpty false 0 0 20 10 initialState).ranges
        = [(1001, 1020), (1021, 1040), (1041, 1050)]
    ∧ (startSync envOkEmpty false 0 0 20 10 initialState).scannedBlock = 1050
    ∧ (startSync envOkEmpty false 0 0 20 10 initialState).status
        = SyncStatus.COMPLETED := by
  refine ⟨by decide, by decide, by decide, by decide⟩

/-- C8 (amended): the sync upper bound is the chain head when no end time
is configured; when an end time is configured it is min(head, end block)
provided the computed end block is positive, while a computed end block
of 0 (an end time at least `currentBlock` block-intervals in the past)
falls back to the chain head. -/
theorem sync_upper_bound_spec (head currentBlock chainTs : Int) (endTime : Option Int) :
    syncLimit head (calculateEndBlock currentBlock chainTs none) = head
    ∧ (0 < calculateEndBlock currentBlock chainTs endTime →
        syncLimit head (calculateEndBlock currentBlock chainTs endTime)
          = min head (calculateEndBlock currentBlock chainTs endTime))
    ∧ (calculateEndBlock currentBlock chainTs endTime ≤ 0 →
        syncLimit head (calculateEndBlock currentBlock chainTs endTime) = head) := by
  refine ⟨?_, ?_, ?_⟩
  · show syncLimit head 0 = head
    unfold syncLimit
    rw [if_neg (by omega)]
  · intro h
    unfold syncLimit
    rw [if_pos h]
  · intro h
    unfold syncLimit
    rw [if_neg (by omega)]

/-- Counterexample to C8 as stated: with head 100, chain timestamp
1000000 ms and a configured end time of 0 ms, the computed end block is 0,
and the code's upper bound is 100 (the head) whereas the claimed
`min(head, end block)` is 0. -/
theorem sync_upper_bound_cex :
    calculateEndBlock 100 1000000 (some 0) = 0
    ∧ syncLimit 100 (calculateEndBlock 100 1000000 (some 0)) = 100
    ∧ min (100 : Int) (calculateEndBlock 100 1000000 (some 0)) = 0
    ∧ (100 : Int) ≠ 0 := by
  refine ⟨by decide, by decide, by decide, by decide⟩

/-- Witness for C8 (amended): with a positive computed end block the upper
bound is the minimum of head and end block. -/
theorem sync_upper_bound_spec_witness :
    syncLimit 50 (calculateEndBlock 100 1000000 (some 999000))
      = min 50 (calculateEndBlock 100 1000000 (some 999000)) :=
  (sync_upper_bound_spec 50 100 1000000 (some 999000)).2.1 (by decide)

lemma syncLoop_ranges_extends (env : RpcEnv) (b l : Int) :
    ∀ (fuel : Nat) (p : Int) (st : SyncState),
      ∃ tail, (syncLoop env b l fuel p st).ranges = st.ranges ++ tail := by
  intro fuel
  induction fuel with
  | zero => intro p st; exact ⟨[], (List.append_nil _).symm⟩
  | succ n ih =>
    intro p st
    rw [syncLoop]
    by_cases hp : p < l
    · rw [if_pos hp]
      cases hfetch : env.fetchLogs (p + 1) (toBlockOf p b l) with
      | error m =>
        exact ⟨[(p + 1, toBlockOf p b l)], rfl⟩
      | ok logs =>
        rcases ih (toBlockOf p b l)
            { st with
              store := if logs.isEmpty then st.store else (saveEvents st.store logs).2,
              scannedBlock := toBlockOf p b l,
              ranges := st.ranges ++ [(p + 1, toBlockOf p b l)] } with ⟨tail, htail⟩
        exact ⟨[(p + 1, toBlockOf p b l)] ++ tail,
          htail.trans (List.append_assoc _ _ _)⟩
    · rw [if_neg hp]
      exact ⟨[], (List.append_nil _).symm⟩

lemma syncLoop_error_retry (env : RpcEnv) (b l : Int) :
    ∀ (fuel : Nat) (p : Int) (st : SyncState),
      st.isSyncing = true → st.status = SyncStatus.SYNCING →
      (syncLoop env b l fuel p st).status = SyncStatus.ERROR →
      (syncLoop env b l fuel p st).retryTimer = some RETRY_DELAY_MS
      ∧ ∃ m, (syncLoop env b l fuel p st).errorMsg = some (errText m) := by
  intro fuel
  induction fuel with
  | zero =>
    intro p st _ hstatus herr
    rw [syncLoop] at herr
    rw [hstatus] at herr
    simp at herr
  | succ n ih =>
    intro p st hsync hstatus herr
    rw [syncLoop] at herr ⊢
    by_cases hp : p < l
    · rw [if_pos hp] at herr ⊢
      cases hfetch : env.fetchLogs (p + 1) (toBlockOf p b l) with
      | error m =>
        refine ⟨?_, m, rfl⟩
        show (if st.isSyncing then some RETRY_DELAY_MS else st.retryTimer)
          = some RETRY_DELAY_MS
        rw [hsync]
        rfl
      | ok logs =>
        rw [hfetch] at herr
        exact ih (toBlockOf p b l) _ hsync hstatus herr
    · rw [if_neg hp] at herr
      simp at herr

lemma syncLoop_head_range (env : RpcEnv) (b l : Int) (fuel : Nat) (p : Int)
    (st : SyncState) (hp : p < l) (hr : st.ranges = []) (hf : 0 < fuel) :
    (syncLoop env b l fuel p st).ranges.head? = some (p + 1, toBlockOf p b l) := by
  cases fuel with
  | zero => omega
  | succ n =>
    rw [syncLoop, if_pos hp]
    cases hfetch : env.fetchLogs (p + 1) (toBlockOf p b l) with
    | error m =>
      show (st.ranges ++ [(p + 1, toBlockOf p b l)]).head? = _
      rw [hr]
      rfl
    | ok logs =>
      rcases syncLoop_ranges_extends env b l n (toBlockOf p b l)
          { st with
            store := if logs.isEmpty then st.store else (saveEvents st.store logs).2,
            scannedBlock := toBlockOf p b l,
            ranges := st.ranges ++ [(p + 1, toBlockOf p b l)] } with ⟨tail, htail⟩
      show (syncLoop env b l n (toBlockOf p b l)
          { st with
            store := if logs.isEmpty then st.store else (saveEvents st.store logs).2,
            scannedBlock := toBlockOf p b l,
            ranges := st.ranges ++ [(p + 1, toBlockOf p b l)] }).ranges.head? = _
      rw [htail]
      show ((st.ranges ++ [(p + 1, toBlockOf p b l)]) ++ tail).head? = _
      rw [hr]
      rfl

/-- C6: whenever a non-zero checkpoint exists in the store (and the state
mirrors it, as loadDataFromDB establishes), startSync resumes from it: the
computed pointer equals the checkpoint, it is independent of the
configured start time, and the first fetched range starts at
checkpoint + 1. -/
theorem resume_from_checkpoint (store : List LogEvent)
    (head headTs startTime startTime2 ceb batchSize : Int)
    (env : RpcEnv) (fuel : Nat) (st0 : SyncState)
    (hcp : 0 < getLatestStoredBlock store)
    (hsb : st0.scannedBlock = (getLatestStoredBlock store : Int))
    (hstatus : st0.status ≠ SyncStatus.SYNCING)
    (hranges : st0.ranges = [])
    (hhead : env.head = Except.ok head)
    (hts : env.headTs = Except.ok headTs)
    (hlt : (getLatestStoredBlock store : Int) < syncLimit head ceb)
    (hfuel : 0 < fuel) :
    computeStartPointer st0.scannedBlock head headTs startTime
        = (getLatestStoredBlock store : Int)
    ∧ computeStartPointer st0.scannedBlock head headTs startTime
        = computeStartPointer st0.scannedBlock head headTs startTime2
    ∧ (startSync env false startTime ceb batchSize fuel st0).ranges.head?
        = some ((getLatestStoredBlock store : Int) + 1,
                toBlockOf (getLatestStoredBlock store : Int) batchSize
                  (syncLimit head ceb)) := by
  have hpos : (0 : Int) < st0.scannedBlock := by
    rw [hsb]
    exact_mod_cast hcp
  have hptr : ∀ t : Int,
      computeStartPointer st0.scannedBlock head headTs t = st0.scannedBlock := by
    intro t
    unfold computeStartPointer
    rw [if_pos hpos]
  refine ⟨by rw [hptr, hsb], by rw [hptr, hptr], ?_⟩
  unfold startSync
  rw [if_neg (by intro hand; exact hstatus hand.1), hhead, hts]
  dsimp only
  rw [hptr startTime, hsb]
  rw [if_neg (by omega)]
  exact syncLoop_head_range env batchSize (syncLimit head ceb) fuel _ _ hlt hranges hfuel

/-- Stored event at block 1040 used by the C6 witness. -/
def ev1040 : LogEvent :=
  { uniqueId := some "0xaaa-0", logIndex := some 0, blockNumber := 1040,
    transactionHash := "0xaaa", recipient := "0xR", silenceAmount := 2,
    usdtAmount := some 1, timestamp := 0 }

/-- Application state after loading a store whose checkpoint is 1040. -/
def stResume : SyncState := { scannedBlock := 1040 }

/-- Witness for C6: with events stored through block 1040 and head 1050,
the first fetched range starts at 1041 (not at the start-time block). -/
theorem resume_from_checkpoint_witness :
    (startSync envOkEmpty false 0 0 1000 10 stResume).ranges.head? = some (1041, 1050) := by
  have h := (resume_from_checkpoint [ev1040] 1050 100000 0 7 0 1000 envOkEmpty 10 stResume
    (by decide) (by decide) (by decide) rfl rfl rfl (by decide) (by decide)).2.2
  rw [h]
  decide

/-- C4 (amended): every propagated error makes startSync enter ERROR and
set the human-readable banner; the 5 s retry timer re-entering the start
transition is scheduled exactly when `isSyncingRef` is set at catch time:
always for failures inside the batch loop, but for a head-block or
head-timestamp read failure only when the flag was still set from an
earlier loop — on a fresh start (flag clear) no retry is scheduled. -/
theorem startSync_error_spec (env : RpcEnv) (isRetry : Bool)
    (startTime ceb batchSize : Int) (fuel : Nat) (st0 : SyncState)
    (hguard : ¬(st0.status = SyncStatus.SYNCING ∧ isRetry = false)) :
    (∀ m, env.head = Except.error m →
      (startSync env isRetry startTime ceb batchSize fuel st0).status = SyncStatus.ERROR
      ∧ (startSync env isRetry startTime ceb batchSize fuel st0).errorMsg
          = some (errText m)
      ∧ (startSync env isRetry startTime ceb batchSize fuel st0).retryTimer
          = (if st0.isSyncing then some RETRY_DELAY_MS else none))
    ∧ (∀ head m, env.head = Except.ok head → env.headTs = Except.error m →
      (startSync env isRetry startTime ceb batchSize fuel st0).status = SyncStatus.ERROR
      ∧ (startSync env isRetry startTime ceb batchSize fuel st0).errorMsg
          = some (errText m)
      ∧ (startSync env isRetry startTime ceb batchSize fuel st0).retryTimer
          = (if st0.isSyncing then some RETRY_DELAY_MS else none))
    ∧ (∀ head headTs, env.head = Except.ok head → env.headTs = Except.ok headTs →
      (startSync env isRetry startTime ceb batchSize fuel st0).status = SyncStatus.ERROR →
      (startSync env isRetry startTime ceb batchSize fuel st0).retryTimer
          = some RETRY_DELAY_MS
      ∧ ∃ m, (startSync env isRetry startTime ceb batchSize fuel st0).errorMsg
          = some (errText m)) := by
  refine ⟨?_, ?_, ?_⟩
  · intro m hm
    unfold startSync
    rw [if_neg hguard, hm]
    exact ⟨rfl, rfl, rfl⟩
  · intro head m hh hm
    unfold startSync
    rw [if_neg hguard, hh, hm]
    exact ⟨rfl, rfl, rfl⟩
  · intro head headTs hh ht herr
    unfold startSync at herr ⊢
    rw [if_neg hguard, hh, ht] at herr ⊢
    dsimp only at herr ⊢
    by_cases hge : computeStartPointer st0.scannedBlock head headTs startTime
        ≥ syncLimit head ceb
    · rw [if_pos hge] at herr
      simp at herr
    · rw [if_neg hge] at herr ⊢
      exact syncLoop_error_retry env batchSize (syncLimit head ceb) fuel
        (computeStartPointer st0.scannedBlock head headTs startTime) _ rfl rfl herr

/-- Counterexample to C4 as stated: on a fresh start (IDLE state,
`isSyncingRef` clear) a failing head read transitions to ERROR with a
message but schedules no retry timer, contradicting the claim that a retry
is scheduled regardless of whether the failure occurred before or after
the batch loop began. -/
theorem startSync_headfail_no_retry_cex :
    (startSync envHeadFail false 0 0 1000 5 initialState).status = SyncStatus.ERROR
    ∧ (startSync envHeadFail false 0 0 1000 5 initialState).errorMsg
        = some "RPC Error: boom. Retrying in 5s..."
    ∧ (startSync envHeadFail false 0 0 1000 5 initialState).retryTimer = none := by
  refine ⟨rfl, rfl, rfl⟩

/-- Witness for C4 (amended): the pre-loop failure case with the flag
clear yields ERROR and no retry timer. -/
theorem startSync_error_spec_witness :
    (startSync envHeadFail false 0 0 1000 5 initialState).status = SyncStatus.ERROR
    ∧ (startSync envHeadFail false 0 0 1000 5 initialState).retryTimer = none := by
  have h := (startSync_error_spec envHeadFail false 0 0 1000 5 initialState
    (by simp [initialState])).1 "boom" rfl
  exact ⟨h.1, h.2.2.trans rfl⟩

-- aggregation engine (processData, src/unnamed/part_001 lines 127-181) ----

/-- Per-recipient accumulator entry of processData's aggMap
(src/unnamed/part_001 line 128): bigint silence and usdt sums and a
count. -/
structure AggEntry where
  silence : Int
  usdt : Int
  count : Nat
  deriving Repr, DecidableEq

/-- The default entry `\x7b silence: 0n, usdt: 0n, count: 0 \x7d`. -/
def zeroEntry : AggEntry := ⟨0, 0, 0⟩

/-- JS Map get, with the Map embedded as an insertion-ordered association
list. -/
def mapGet (m : List (String × AggEntry)) (k : String) : Option AggEntry :=
  (m.find? (fun p => p.1 == k)).map Prod.snd

/-- JS Map set: replace the value in place when the key exists, otherwise
append the new binding. -/
def mapSet (m : List (String × AggEntry)) (k : String) (v : AggEntry) :
    List (String × AggEntry) :=
  if (m.find? (fun p => p.1 == k)).isSome
  then m.map (fun p => if p.1 == k then (k, v) else p)
  else m ++ [(k, v)]

/-- One forEach step of processData on aggMap (src/unnamed/part_001 lines
136-144): read the current entry (defaulting to zeros), add the event's
amounts as bigints (`BigInt(ev.silenceAmount)` and
`BigInt(ev.usdtAmount || '0')`) and bump the count. -/
def aggStep (m : List (String × AggEntry)) (ev : LogEvent) : List (String × AggEntry) :=
  mapSet m ev.recipient
    ⟨((mapGet m ev.recipient).getD zeroEntry).silence + ev.silenceAmount,
     ((mapGet m ev.recipient).getD zeroEntry).usdt + ev.usdtAmount.getD 0,
     ((mapGet m ev.recipient).getD zeroEntry).count + 1⟩

/-- The aggMap accumulation of processData (src/unnamed/part_001 lines
127-181), the part claim C7 concerns: the events are folded in forEach
order into the per-recipient map.  The daily-chart and today maps
accumulate with the same bigint pattern; the final `toAggArray`
float conversion is modelled by `totalSilenceValue` below. -/
def processDataAggMap (events : List LogEvent) : List (String × AggEntry) :=
  events.foldl aggStep []

/-- Exact value rendered by `parseFloat(ethers.formatUnits(data.silence,
LGNS_DECIMALS))` in toAggArray (src/unnamed/part_001 lines 164-171):
`formatUnits` prints the exact decimal string of silence / 10^9, so the
conversion to floating point happens only once, at this presentation
boundary; the exact rational it rounds is silence / 10^9. -/
def totalSilenceValue (a : AggEntry) : ℚ := (a.silence : ℚ) / 10 ^ LGNS_DECIMALS

/-- Specification-side per-event update on an entry. -/
def entryPlus (a : AggEntry) (e : LogEvent) : AggEntry :=
  ⟨a.silence + e.silenceAmount, a.usdt + e.usdtAmount.getD 0, a.count + 1⟩

lemma bool_eq_false {b : Bool} (h : ¬b = true) : b = false := by
  cases b
  · rfl
  · exact absurd rfl h

lemma find?_cons_true {α : Type} (p : α → Bool) (a : α) (l : List α) (h : p a = true) :
    (a :: l).find? p = some a := by
  rw [List.find?_cons, h]

lemma find?_cons_false {α : Type} (p : α → Bool) (a : α) (l : List α) (h : p a = false) :
    (a :: l).find? p = l.find? p := by
  rw [List.find?_cons, h]

lemma find?_append_none {α : Type} (p : α → Bool) {l1 : List α}
    (h : l1.find? p = none) (l2 : List α) :
    (l1 ++ l2).find? p = l2.find? p := by
  induction l1 with
  | nil => rfl
  | cons a t ih =>
    rw [List.cons_append]
    by_cases hpa : p a = true
    · rw [find?_cons_true p a t hpa] at h
      cases h
    · rw [find?_cons_false p a t (bool_eq_false hpa)] at h
      rw [find?_cons_false p a (t ++ l2) (bool_eq_false hpa)]
      exact ih h

lemma find?_append_some {α : Type} (p : α → Bool) {l1 : List α} {a : α}
    (h : l1.find? p = some a) (l2 : List α) :
    (l1 ++ l2).find? p = some a := by
  induction l1 with
  | nil => cases h
  | cons b t ih =>
    rw [List.cons_append]
    by_cases hpb : p b = true
    · rw [find?_cons_true p b t hpb] at h
      rw [find?_cons_true p b (t ++ l2) hpb]
      exact h
    · rw [find?_cons_false p b t (bool_eq_false hpb)] at h
      rw [find?_cons_false p b (t ++ l2) (bool_eq_false hpb)]
      exact ih h

lemma find?_update_same (m : List (String × AggEntry)) (k : String) (v : AggEntry)
    (h : (m.find? (fun p => p.1 == k)).isSome) :
    (m.map (fun p => if p.1 == k then (k, v) else p)).find? (fun p => p.1 == k)
      = some (k, v) := by
  induction m with
  | nil => cases h
  | cons a t ih =>
    rw [List.map_cons]
    by_cases ha : (a.1 == k) = true
    · rw [if_pos ha]
      exact find?_cons_true (fun p => p.1 == k) (k, v) _ (by simp)
    · rw [if_neg ha]
      rw [find?_cons_false (fun p => p.1 == k) a _ (bool_eq_false ha)]
      rw [find?_cons_false (fun p => p.1 == k) a t (bool_eq_false ha)] at h
      exact ih h

lemma find?_update_ne (m : List (String × AggEntry)) (k k' : String) (v : AggEntry)
    (hne : (k' == k) = false) :
    (m.map (fun p => if p.1 == k then (k, v) else p)).find? (fun p => p.1 == k')
      = m.find? (fun p => p.1 == k') := by
  have hkk : (k == k') = false := by
    rw [beq_eq_false_iff_ne] at hne ⊢
    exact Ne.symm hne
  induction m with
  | nil => rfl
  | cons a t ih =>
    rw [List.map_cons]
    by_cases ha : (a.1 == k) = true
    · rw [if_pos ha]
      have ha1 : a.1 = k := eq_of_beq ha
      have hak' : (a.1 == k') = false := by
        rw [ha1]
        exact hkk
      rw [find?_cons_false (fun p => p.1 == k') (k, v) _ hkk]
      rw [find?_cons_false (fun p => p.1 == k') a t hak']
      exact ih
    · rw [if_neg ha]
      by_cases hak' : (a.1 == k') = true
      · rw [find?_cons_true (fun p => p.1 == k') a _ hak']
        rw [find?_cons_true (fun p => p.1 == k') a t hak']
      · rw [find?_cons_false (fun p => p.1 == k') a _ (bool_eq_false hak')]
        rw [find?_cons_false (fun p => p.1 == k') a t (bool_eq_false hak')]
        exact ih

lemma mapGet_mapSet_same (m : List (String × AggEntry)) (k : String) (v : AggEntry) :
    mapGet (mapSet m k v) k = some v := by
  unfold mapGet mapSet
  by_cases h : (m.find? (fun p => p.1 == k)).isSome
  · rw [if_pos h, find?_update_same m k v h]
    rfl
  · rw [if_neg h]
    rw [Option.not_isSome_iff_eq_none] at h
    rw [find?_append_none _ h]
    rw [find?_cons_true (fun p => p.1 == k) (k, v) [] (by simp)]
    rfl

lemma mapGet_mapSet_ne (m : List (String × AggEntry)) (k k' : String) (v : AggEntry)
    (hne : (k' == k) = false) :
    mapGet (mapSet m k v) k' = mapGet m k' := by
  unfold mapGet mapSet
  by_cases h : (m.find? (fun p => p.1 == k)).isSome
  · rw [if_pos h, find?_update_ne m k k' v hne]
  · rw [if_neg h]
    cases hm : m.find? (fun p => p.1 == k') with
    | some a => rw [find?_append_some _ hm]
    | none =>
      rw [find?_append_none _ hm]
      have hkk : (k == k') = false := by
        rw [beq_eq_false_iff_ne] at hne ⊢
        exact Ne.symm hne
      rw [find?_cons_false (fun p => p.1 == k') (k, v) [] hkk]
      rfl

lemma filter_cons_true {α : Type} (p : α → Bool) (a : α) (l : List α) (h : p a = true) :
    (a :: l).filter p = a :: l.filter p := by
  rw [List.filter_cons, if_pos h]

lemma filter_cons_false {α : Type} (p : α → Bool) (a : α) (l : List α) (h : p a = false) :
    (a :: l).filter p = l.filter p := by
  rw [List.filter_cons, if_neg (by rw [h]; exact Bool.false_ne_true)]

lemma processAgg_invariant (events : List LogEvent) :
    ∀ (m : List (String × AggEntry)) (r : String),
      mapGet (events.foldl aggStep m) r
        = (events.filter (fun e => e.recipient == r)).foldl
            (fun o e => some (entryPlus (o.getD zeroEntry) e)) (mapGet m r) := by
  induction events with
  | nil => intro m r; rfl
  | cons ev rest ih =>
    intro m r
    rw [List.foldl_cons, ih (aggStep m ev) r]
    cases hr : (ev.recipient == r) with
    | true =>
      have hrEq : ev.recipient = r := eq_of_beq hr
      rw [filter_cons_true (fun e => e.recipient == r) ev rest hr, List.foldl_cons]
      have hget : mapGet (aggStep m ev) r
          = some (entryPlus ((mapGet m r).getD zeroEntry) ev) := by
        unfold aggStep
        rw [hrEq]
        exact mapGet_mapSet_same m r _
      rw [hget]
    | false =>
      rw [filter_cons_false (fun e => e.recipient == r) ev rest hr]
      have hr2 : (r == ev.recipient) = false := by
        rw [beq_eq_false_iff_ne] at hr ⊢
        exact Ne.symm hr
      have hget : mapGet (aggStep m ev) r = mapGet m r := by
        unfold aggStep
        exact mapGet_mapSet_ne m ev.recipient r _ hr2
      rw [hget]

lemma foldl_opt_some (l : List LogEvent) (a : AggEntry) :
    l.foldl (fun o e => some (entryPlus (o.getD zeroEntry) e)) (some a)
      = some (l.foldl entryPlus a) := by
  induction l generalizing a with
  | nil => rfl
  | cons e t ih =>
    rw [List.foldl_cons, List.foldl_cons]
    exact ih (entryPlus a e)

lemma foldl_entryPlus (l : List LogEvent) (a : AggEntry) :
    l.foldl entryPlus a
      = ⟨a.silence + (l.map (fun e => e.silenceAmount)).sum,
         a.usdt + (l.map (fun e => e.usdtAmount.getD 0)).sum,
         a.count + l.length⟩ := by
  induction l generalizing a with
  | nil => simp
  | cons e t ih =>
    rw [List.foldl_cons, ih (entryPlus a e)]
    simp [entryPlus, AggEntry.mk.injEq]
    refine ⟨by ring, by ring, by omega⟩

/-- C7: for every event set and recipient with at least one event, the
recomputed aggregate entry holds the exact integer sums of that
recipient's silence and usdt amounts and the exact event count (bigint
accumulation, no floating point at any intermediate step), and the
presentation value derived from it is exactly (a1+...+aN) / 10^9 as a
rational, floating point entering only at that final boundary. -/
theorem aggregation_exact (events : List LogEvent) (r : String)
    (h : events.filter (fun e => e.recipient == r) ≠ []) :
    mapGet (processDataAggMap events) r
      = some ⟨((events.filter (fun e => e.recipient == r)).map
                  (fun e => e.silenceAmount)).sum,
              ((events.filter (fun e => e.recipient == r)).map
                  (fun e => e.usdtAmount.getD 0)).sum,
              (events.filter (fun e => e.recipient == r)).length⟩
    ∧ ∀ a : AggEntry, mapGet (processDataAggMap events) r = some a →
        totalSilenceValue a
          = ((((events.filter (fun e => e.recipient == r)).map
                (fun e => e.silenceAmount)).sum : Int) : ℚ) / 10 ^ LGNS_DECIMALS := by
  have hmain : mapGet (processDataAggMap events) r
      = some ⟨((events.filter (fun e => e.recipient == r)).map
                  (fun e => e.silenceAmount)).sum,
              ((events.filter (fun e => e.recipient == r)).map
                  (fun e => e.usdtAmount.getD 0)).sum,
              (events.filter (fun e => e.recipient == r)).length⟩ := by
    unfold processDataAggMap
    rw [processAgg_invariant events [] r]
    rcases List.exists_cons_of_ne_nil h with ⟨e, t, het⟩
    rw [het]
    show List.foldl _ (some (entryPlus ((mapGet [] r).getD zeroEntry) e)) t = _
    rw [foldl_opt_some, foldl_entryPlus]
    simp [entryPlus, zeroEntry, mapGet, AggEntry.mk.injEq]
    omega
  refine ⟨hmain, ?_⟩
  intro a ha
  rw [hmain] at ha
  injection ha with ha2
  rw [← ha2]
  rfl

/-- Large-amount event (silence amount 2^60, beyond 2^53) for the C7
witness. -/
def bigEv1 : LogEvent :=
  { uniqueId := some "0xb-0", logIndex := some 0, blockNumber := 1,
    transactionHash := "0xb", recipient := "0xA",
    silenceAmount := 1152921504606846976, usdtAmount := some 5, timestamp := 0 }

/-- Second event for the same recipient for the C7 witness. -/
def bigEv2 : LogEvent :=
  { uniqueId := some "0xb-1", logIndex := some 1, blockNumber := 2,
    transactionHash := "0xb", recipient := "0xA",
    silenceAmount := 1, usdtAmount := some 5, timestamp := 0 }

/-- Witness for C7: two events of 2^60 and 1 units aggregate to exactly
2^60 + 1 = 1152921504606846977 (which a double-precision accumulator could
not represent after adding 1), with the exact rational display value. -/
theorem aggregation_exact_witness :
    mapGet (processDataAggMap [bigEv1, bigEv2]) "0xA"
        = some ⟨1152921504606846977, 10, 2⟩
    ∧ totalSilenceValue ⟨1152921504606846977, 10, 2⟩
        = (1152921504606846977 : ℚ) / 10 ^ LGNS_DECIMALS := by
  have h := aggregation_exact [bigEv1, bigEv2] "0xA" (by decide)
  constructor
  · rw [h.1]
    decide
  · have hsum : (([bigEv1, bigEv2].filter (fun e => e.recipient == "0xA")).map
        (fun e => e.silenceAmount)).sum = (1152921504606846977 : Int) := by decide
    have h2 := h.2 ⟨1152921504606846977, 10, 2⟩ (by rw [h.1]; decide)
    rw [hsum] at h2
    rw [h2]
    norm_num

end TurbineTracker
